import Mathlib

/-
  Verification of the diagnostics registry and render-synchronization engine
  of bevy_screen_diagnostics (src/lib.rs), via a shallow embedding.

  Diagnostic values (Rust f64) are modelled as rationals; all concrete
  inputs appearing in the claims are exactly representable. The external
  sample store (bevy DiagnosticsStore) is modelled from the boundary
  contract of the spec (section 6). Text spans are modelled as the
  writer-indexed list of sections: index 0 is the root Text section,
  children follow in spawn order.
-/

namespace ScreenDiag

/-- Colors, abstract: the code only stores and copies them. -/
inductive Color where
  | red
  | white
  | custom (n : Nat)
deriving DecidableEq, Repr

/-- `const DEFAULT_COLORS: (Srgba, Srgba) = (css::RED, css::WHITE);` -/
def DEFAULT_COLORS : Color × Color := (Color.red, Color.white)

/-- `JustifyText` values relevant here. -/
inductive JustifyText where
  | Left
  | Center
  | Right
deriving DecidableEq, Repr

/-- The `Aggregate` enum of src/lib.rs. -/
inductive Aggregate where
  | Value
  | Average
  | MovingAverage (window : Nat)
deriving DecidableEq, Repr

/-- `pub type FormatFn = fn(f64) -> String;` -/
def FormatFn : Type := ℚ → String

/-- The default formatter `|v| format!("[v:.2]")`; the exact rendered digits
are irrelevant to every claim, so the rendering is abstracted. -/
def placeholder_format : FormatFn := fun v => toString v

/-- The `DiagnosticsText` struct of src/lib.rs. -/
structure DiagnosticsText where
  name : String
  path : String
  agg : Aggregate
  format : FormatFn
  «show» : Bool
  show_name : Bool
  colors : Color × Color
  edit : Bool
  rebuild : Bool
  index : Option Nat

/-- `DiagnosticsText::get_name`: `" [name] "` when `show_name`, else `" "`. -/
def DiagnosticsText.get_name (t : DiagnosticsText) : String :=
  if t.show_name then " " ++ t.name ++ " " else " "

/-- Modelled from the spec: the external sample store record for one key
(spec section 6): a rolling history of values, oldest-to-newest. This is
bevy's `Diagnostic`, an external collaborator of the repository. -/
structure Diagnostic where
  history : List ℚ

/-- Modelled from the spec: `latest()`, the most recent sample. -/
def Diagnostic.value (d : Diagnostic) : Option ℚ := d.history.getLast?

/-- Modelled from the spec: the running average of all retained samples,
`None` on an empty history (spec section 4.1, RunningAverage). -/
def Diagnostic.average (d : Diagnostic) : Option ℚ :=
  if d.history.isEmpty then none else some (d.history.sum / (d.history.length : ℚ))

/-- Modelled from the spec: `history_len()`. -/
def Diagnostic.history_len (d : Diagnostic) : Nat := d.history.length

/-- Modelled from the spec: `values()`, oldest-to-newest. -/
def Diagnostic.values (d : Diagnostic) : List ℚ := d.history

/-- The external sample store, keyed by diagnostic path. -/
def DiagnosticsStore : Type := String → Option Diagnostic

/-- Rust `usize::checked_sub`. -/
def checkedSub (a b : Nat) : Option Nat := if b ≤ a then some (a - b) else none

/-- The aggregation match of `update_diags` (src/lib.rs lines 444-451). -/
def aggregateValue (agg : Aggregate) (d : Diagnostic) : Option ℚ :=
  match agg with
  | Aggregate.Value => d.value
  | Aggregate.Average => d.average
  | Aggregate.MovingAverage count =>
      (checkedSub d.history_len count).map
        (fun skip => ((d.values.drop skip).sum) / (count : ℚ))

/-- The `ScreenDiagnostics` resource. The `BTreeMap<String, DiagnosticsText>`
is modelled as an association list kept sorted ascending by key. -/
structure ScreenDiagnostics where
  text_alignment : JustifyText
  diagnostics : List (String × DiagnosticsText)
  layout_changed : Bool

/-- `ScreenDiagnostics::default()`. -/
def ScreenDiagnostics.default : ScreenDiagnostics :=
  { text_alignment := JustifyText.Left, diagnostics := [], layout_changed := false }

/-- `BTreeMap::insert`: replace the value under an existing key, otherwise
insert at the sorted position. -/
def btreeInsert : List (String × DiagnosticsText) → String → DiagnosticsText →
    List (String × DiagnosticsText)
  | [], k, v => [(k, v)]
  | (k1, v1) :: rest, k, v =>
      if k < k1 then (k, v) :: (k1, v1) :: rest
      else if k = k1 then (k, v) :: rest
      else (k1, v1) :: btreeInsert rest k v

/-- `BTreeMap::remove`: drop the entry under the key, if present. -/
def btreeRemove : List (String × DiagnosticsText) → String →
    List (String × DiagnosticsText)
  | [], _ => []
  | (k1, v1) :: rest, k => if k1 = k then rest else (k1, v1) :: btreeRemove rest k

/-- `BTreeMap::entry(k).and_modify(f)`: apply `f` to the value under `k`
when present; never inserts. -/
def andModify (m : List (String × DiagnosticsText)) (k : String)
    (f : DiagnosticsText → DiagnosticsText) : List (String × DiagnosticsText) :=
  m.map (fun p => if p.1 = k then (p.1, f p.2) else p)

/-- The `DiagnosticsText` built by `ScreenDiagnostics::add`. -/
def newText (name path : String) : DiagnosticsText :=
  { name := name
    path := path
    agg := Aggregate.Value
    format := placeholder_format
    «show» := true
    show_name := true
    colors := (DEFAULT_COLORS.1, DEFAULT_COLORS.2)
    edit := false
    rebuild := true
    index := none }

/-- `ScreenDiagnostics::add` (the map insertion it performs; the returned
builder is modelled by the `Builder` operations below, keyed by name). -/
def ScreenDiagnostics.add (r : ScreenDiagnostics) (name path : String) :
    ScreenDiagnostics :=
  { r with diagnostics := btreeInsert r.diagnostics name (newText name path) }

/-- `ScreenDiagnostics::remove`. -/
def ScreenDiagnostics.remove (r : ScreenDiagnostics) (name : String) :
    ScreenDiagnostics :=
  { r with diagnostics := btreeRemove r.diagnostics name }

/-- `ScreenDiagnostics::set_alignment`. -/
def ScreenDiagnostics.set_alignment (r : ScreenDiagnostics) (a : JustifyText) :
    ScreenDiagnostics :=
  { r with text_alignment := a, layout_changed := true }

/-- `DiagnosticsTextBuilder::aggregate`. -/
def Builder.aggregate (r : ScreenDiagnostics) (k : String) (a : Aggregate) :
    ScreenDiagnostics :=
  { r with diagnostics :=
              andModify r.diagnostics k (fun e => { e with agg := a, rebuild := true }) }

/-- `DiagnosticsTextBuilder::format`. -/
def Builder.format (r : ScreenDiagnostics) (k : String) (f : FormatFn) :
    ScreenDiagnostics :=
  { r with diagnostics :=
              andModify r.diagnostics k (fun e => { e with format := f, rebuild := true }) }

/-- `DiagnosticsTextBuilder::diagnostic_color` (value color). -/
def Builder.diagnostic_color (r : ScreenDiagnostics) (k : String) (c : Color) :
    ScreenDiagnostics :=
  { r with diagnostics :=
              andModify r.diagnostics k (fun e => { e with colors := (c, e.colors.2), edit := true }) }

/-- `DiagnosticsTextBuilder::name_color` (label color). -/
def Builder.name_color (r : ScreenDiagnostics) (k : String) (c : Color) :
    ScreenDiagnostics :=
  { r with diagnostics :=
              andModify r.diagnostics k (fun e => { e with colors := (e.colors.1, c), edit := true }) }

/-- `DiagnosticsTextBuilder::toggle_name`. -/
def Builder.toggle_name (r : ScreenDiagnostics) (k : String) : ScreenDiagnostics :=
  { r with diagnostics :=
              andModify r.diagnostics k (fun e => { e with show_name := !e.show_name, edit := true }) }

/-- `DiagnosticsTextBuilder::toggle`. -/
def Builder.toggle (r : ScreenDiagnostics) (k : String) : ScreenDiagnostics :=
  { r with diagnostics :=
              andModify r.diagnostics k (fun e => { e with «show» := !e.«show», rebuild := true }) }

/-- One builder call, as data (for quantifying over call sequences). -/
inductive BuilderOp where
  | aggregate (a : Aggregate)
  | format (f : FormatFn)
  | diagnostic_color (c : Color)
  | name_color (c : Color)
  | toggle_name
  | toggle

/-- Apply one builder call to the registry under key `k`. -/
def applyOp (r : ScreenDiagnostics) (k : String) : BuilderOp → ScreenDiagnostics
  | BuilderOp.aggregate a => Builder.aggregate r k a
  | BuilderOp.format f => Builder.format r k f
  | BuilderOp.diagnostic_color c => Builder.diagnostic_color r k c
  | BuilderOp.name_color c => Builder.name_color r k c
  | BuilderOp.toggle_name => Builder.toggle_name r k
  | BuilderOp.toggle => Builder.toggle r k

/-- Apply a chained sequence of builder calls, left to right. -/
def applyOps (r : ScreenDiagnostics) (k : String) : List BuilderOp → ScreenDiagnostics
  | [] => r
  | op :: ops => applyOps (applyOp r k op) k ops

/-- One renderable text section: string plus color. -/
structure Span where
  text : String
  color : Color
deriving DecidableEq, Repr

/-- The writer-indexed text sections under the root entity; index 0 is the
root `Text` (spawned empty by `spawn_ui`), children follow. -/
structure UiState where
  spans : List Span
  alignment : JustifyText

/-- The root section spawned by `spawn_ui`: `Text::default()`. -/
def rootSpan : Span := { text := "", color := Color.white }

/-- The UI state right after `spawn_ui`, before any rebuild. -/
def initialUi : UiState := { spans := [rootSpan], alignment := JustifyText.Left }

/-- The rebuild loop body of `update_onscreen_diags_layout`: walk the
reverse-ordered entries; the i-th (0-indexed) visible one gets
`index = some (i*2+1)` and contributes a value span (text `"test_val"`,
value color) then a label span (`get_name`, label color); invisible
entries pass through untouched. -/
def rebuildWalk : Nat → List (String × DiagnosticsText) →
    List (String × DiagnosticsText) × List Span
  | _, [] => ([], [])
  | i, (k, t) :: rest =>
      if t.«show» then
        let w := rebuildWalk (i + 1) rest
        ((k, { t with index := some (i * 2 + 1) }) :: w.1,
          { text := "test_val", color := t.colors.1 } ::
            { text := t.get_name, color := t.colors.2 } :: w.2)
      else
        let w := rebuildWalk i rest
        ((k, t) :: w.1, w.2)

/-- `update_onscreen_diags_layout`: when `layout_changed`, discard the old
children, regenerate spans and indices from the reversed entry order, set
the alignment, and clear the global flag; otherwise do nothing. -/
def update_onscreen_diags_layout (r : ScreenDiagnostics) (ui : UiState) :
    ScreenDiagnostics × UiState :=
  if r.layout_changed then
    let w := rebuildWalk 0 r.diagnostics.reverse
    ({ r with diagnostics := w.1.reverse, layout_changed := false },
      { spans := rootSpan :: w.2, alignment := r.text_alignment })
  else (r, ui)

/-- Point update of the section list; out of range leaves it unchanged. -/
def modifyAt : List Span → Nat → (Span → Span) → List Span
  | [], _, _ => []
  | s :: rest, 0, f => f s :: rest
  | s :: rest, n + 1, f => s :: modifyAt rest n f

/-- `*writer.text(root, i) = s`. -/
def setText (spans : List Span) (i : Nat) (s : String) : List Span :=
  modifyAt spans i (fun sp => { sp with text := s })

/-- `*writer.color(root, i) = c`. -/
def setColor (spans : List Span) (i : Nat) (c : Color) : List Span :=
  modifyAt spans i (fun sp => { sp with color := c })

/-- The per-entry body of the `update_diags` loop for a shown, non-rebuild
entry: flush a pending visual edit (colors at `index` and `index+1`, label
text at `index+1`), then fetch the history, aggregate, and on success write
the formatted value at `index`. -/
def updateOne (store : DiagnosticsStore) (t : DiagnosticsText)
    (spans : List Span) : DiagnosticsText × List Span :=
  let step1 : DiagnosticsText × List Span :=
    match t.index, t.edit with
    | some idx, true =>
        ({ t with edit := false },
          setText (setColor (setColor spans idx t.colors.1) (idx + 1) t.colors.2)
            (idx + 1) t.get_name)
    | _, _ => (t, spans)
  match store t.path with
  | none => step1
  | some d =>
      match aggregateValue t.agg d, t.index with
      | some v, some idx => (step1.1, setText step1.2 idx (t.format v))
      | _, _ => step1

/-- The `update_diags` loop over the reverse-ordered entries, threading the
section list and accumulating the new global flag: a rebuild-flagged entry
is cleared, counted into the flag, and skipped; a hidden entry is skipped;
otherwise `updateOne` runs. -/
def updateWalk (store : DiagnosticsStore) :
    List (String × DiagnosticsText) → List Span →
    List (String × DiagnosticsText) × List Span × Bool
  | [], spans => ([], spans, false)
  | (k, t) :: rest, spans =>
      if t.rebuild then
        let w := updateWalk store rest spans
        ((k, { t with rebuild := false }) :: w.1, w.2.1, true)
      else if t.«show» = false then
        let w := updateWalk store rest spans
        ((k, t) :: w.1, w.2.1, w.2.2)
      else
        let o := updateOne store t spans
        let w := updateWalk store rest o.2
        ((k, o.1) :: w.1, w.2.1, w.2.2)

/-- `update_diags`: bail out when `layout_changed` is still set; otherwise
run the walk and store the accumulated flag. -/
def update_diags (store : DiagnosticsStore) (r : ScreenDiagnostics)
    (ui : UiState) : ScreenDiagnostics × UiState :=
  if r.layout_changed then (r, ui)
  else
    let w := updateWalk store r.diagnostics.reverse ui.spans
    ({ r with diagnostics := w.1.reverse, layout_changed := w.2.2 },
      { ui with spans := w.2.1 })

/-- One scheduled tick: the two systems run chained,
`update_onscreen_diags_layout` strictly before `update_diags`. -/
def tick (store : DiagnosticsStore) (r : ScreenDiagnostics) (ui : UiState) :
    ScreenDiagnostics × UiState :=
  let p := update_onscreen_diags_layout r ui
  update_diags store p.1 p.2

/-- Text of the section at writer index `i`. -/
def textAt (spans : List Span) (i : Nat) : Option String :=
  (spans[i]?).map Span.text

/-- The span pair sequence the rebuild is expected to produce for a list of
entries: per entry, a value span (text `"test_val"`, value color) then a
label span (`get_name`, label color), contiguous; stated from the spec's
rebuild description for comparison with `update_onscreen_diags_layout`. -/
def spansOfEntries : List DiagnosticsText → List Span
  | [] => []
  | t :: rest =>
      { text := "test_val", color := t.colors.1 } ::
        { text := t.get_name, color := t.colors.2 } :: spansOfEntries rest

/-- The index sequence the rebuild is expected to assign to consecutive
visible entries, counting from `i`: the j-th gets `(i+j)*2 + 1`. -/
def expectedIndices : Nat → Nat → List (Option Nat)
  | _, 0 => []
  | i, n + 1 => some (i * 2 + 1) :: expectedIndices (i + 1) n

/-- A store with no data at all, for concrete runs. -/
def emptyStore : DiagnosticsStore := fun _ => none

/-- A one-entry registry whose global flag has been propagated (as it is
after a first update pass), ready for a rebuild. -/
def oneEntryDirty : ScreenDiagnostics :=
  { ScreenDiagnostics.default.add "a" "p" with layout_changed := true }

/-- Same one-entry dirty registry, kept separate so each claim's
counterexample stands on its own definitions. -/
def oneEntryDirty7 : ScreenDiagnostics :=
  { ScreenDiagnostics.default.add "a" "p" with layout_changed := true }

/-- Concrete run for the stale-index scenario: add an entry, tick twice so
it gets an index, toggle it invisible, tick twice more so a rebuild runs
with the entry invisible. -/
def c5step1 : ScreenDiagnostics × UiState :=
  tick emptyStore (ScreenDiagnostics.default.add "a" "p") initialUi

def c5step2 : ScreenDiagnostics × UiState := tick emptyStore c5step1.1 c5step1.2

def c5step3 : ScreenDiagnostics × UiState :=
  tick emptyStore (Builder.toggle c5step2.1 "a") c5step2.2

def c5step4 : ScreenDiagnostics × UiState := tick emptyStore c5step3.1 c5step3.2

/- ===================== Supporting lemmas ===================== -/

theorem ma_short_none (window : Nat) (hist : List ℚ)
    (h : hist.length < window) :
    aggregateValue (Aggregate.MovingAverage window) (Diagnostic.mk hist) = none := by
  simp only [aggregateValue, checkedSub, Diagnostic.history_len, Diagnostic.values]
  rw [if_neg (by omega)]
  rfl

theorem ma_long_some (window : Nat) (hist : List ℚ)
    (h : window ≤ hist.length) :
    aggregateValue (Aggregate.MovingAverage window) (Diagnostic.mk hist) =
      some ((hist.drop (hist.length - window)).sum / (window : ℚ)) := by
  simp only [aggregateValue, checkedSub, Diagnostic.history_len, Diagnostic.values]
  rw [if_pos h]
  rfl

theorem drop_last_length (window : Nat) (hist : List ℚ) (h : window ≤ hist.length) :
    (hist.drop (hist.length - window)).length = window := by
  simp only [List.length_drop]
  omega

theorem lookup_btreeInsert (m : List (String × DiagnosticsText)) (k : String)
    (v : DiagnosticsText) : (btreeInsert m k v).lookup k = some v := by
  induction m with
  | nil => simp [btreeInsert, List.lookup]
  | cons p rest ih =>
    obtain ⟨k1, v1⟩ := p
    by_cases h1 : k < k1
    · simp [btreeInsert, h1, List.lookup]
    · by_cases h2 : k = k1
      · simp [btreeInsert, h1, h2, List.lookup]
      · have hne : (k == k1) = false := beq_eq_false_iff_ne.mpr h2
        simp [btreeInsert, h1, h2, List.lookup, hne, ih]

theorem updateWalk_flag (store : DiagnosticsStore)
    (l : List (String × DiagnosticsText)) (spans : List Span) :
    (updateWalk store l spans).2.2 = l.any (fun p => p.2.rebuild) := by
  induction l generalizing spans with
  | nil => simp [updateWalk]
  | cons p rest ih =>
    obtain ⟨k, t⟩ := p
    by_cases hr : t.rebuild
    · simp [updateWalk, hr]
    · have hr' : t.rebuild = false := by simpa using hr
      by_cases hs : t.«show» = false
      · simp [updateWalk, hr', hs, ih]
      · simp [updateWalk, hr', hs, ih]

theorem any_reverse_rebuild (l : List (String × DiagnosticsText)) :
    l.reverse.any (fun p => p.2.rebuild) = l.any (fun p => p.2.rebuild) := by
  induction l with
  | nil => rfl
  | cons p rest ih => simp [List.any_append, ih, Bool.or_comm]

theorem andModify_lookup_none (m : List (String × DiagnosticsText)) (k : String)
    (f : DiagnosticsText → DiagnosticsText) (h : m.lookup k = none) :
    andModify m k f = m := by
  induction m with
  | nil => rfl
  | cons p rest ih =>
    obtain ⟨k1, v1⟩ := p
    by_cases hk : (k == k1) = true
    · simp [List.lookup, hk] at h
    · have hk' : (k == k1) = false := by simpa using hk
      have hne : k1 ≠ k := fun he => by simp [he] at hk'
      simp [List.lookup, hk'] at h
      simp [andModify] at ih ⊢
      exact ⟨fun he => absurd he hne, ih h⟩

theorem andModify_cons_self (k : String) (v : DiagnosticsText)
    (rest : List (String × DiagnosticsText)) (f : DiagnosticsText → DiagnosticsText) :
    andModify ((k, v) :: rest) k f = (k, f v) :: andModify rest k f := by
  unfold andModify
  rw [List.map_cons, if_pos (show (k, v).1 = k from rfl)]

theorem andModify_cons_ne (k k1 : String) (v : DiagnosticsText)
    (rest : List (String × DiagnosticsText)) (f : DiagnosticsText → DiagnosticsText)
    (h : k1 ≠ k) :
    andModify ((k1, v) :: rest) k f = (k1, v) :: andModify rest k f := by
  unfold andModify
  rw [List.map_cons, if_neg (show ¬((k1, v).1 = k) from h)]

theorem lookup_cons_self (k : String) (v : DiagnosticsText)
    (rest : List (String × DiagnosticsText)) :
    List.lookup k ((k, v) :: rest) = some v := by
  simp [List.lookup]

theorem lookup_cons_ne (k k1 : String) (v : DiagnosticsText)
    (rest : List (String × DiagnosticsText)) (h : k1 ≠ k) :
    List.lookup k1 ((k, v) :: rest) = List.lookup k1 rest := by
  have hb : (k1 == k) = false := beq_eq_false_iff_ne.mpr h
  simp [List.lookup, hb]

theorem lookup_andModify_self (m : List (String × DiagnosticsText)) (k : String)
    (f : DiagnosticsText → DiagnosticsText) :
    (andModify m k f).lookup k = (m.lookup k).map f := by
  induction m with
  | nil => rfl
  | cons p rest ih =>
    obtain ⟨k1, v1⟩ := p
    by_cases hk : k1 = k
    · subst hk
      rw [andModify_cons_self, lookup_cons_self, lookup_cons_self]
      rfl
    · have hk1 : k ≠ k1 := fun he => hk he.symm
      rw [andModify_cons_ne _ _ _ _ _ hk, lookup_cons_ne _ _ _ _ hk1,
        lookup_cons_ne _ _ _ _ hk1, ih]

theorem lookup_andModify_ne (m : List (String × DiagnosticsText)) (k k1 : String)
    (f : DiagnosticsText → DiagnosticsText) (h : k1 ≠ k) :
    (andModify m k f).lookup k1 = m.lookup k1 := by
  induction m with
  | nil => rfl
  | cons p rest ih =>
    obtain ⟨k2, v2⟩ := p
    by_cases hk : k2 = k
    · subst hk
      rw [andModify_cons_self, lookup_cons_ne _ _ _ _ h, lookup_cons_ne _ _ _ _ h, ih]
    · by_cases hk2 : k1 = k2
      · subst hk2
        rw [andModify_cons_ne _ _ _ _ _ hk, lookup_cons_self, lookup_cons_self]
      · rw [andModify_cons_ne _ _ _ _ _ hk, lookup_cons_ne _ _ _ _ hk2,
          lookup_cons_ne _ _ _ _ hk2, ih]

theorem applyOp_noop (r : ScreenDiagnostics) (k : String) (op : BuilderOp)
    (h : r.diagnostics.lookup k = none) : applyOp r k op = r := by
  cases op <;>
    simp [applyOp, Builder.aggregate, Builder.format, Builder.diagnostic_color,
      Builder.name_color, Builder.toggle_name, Builder.toggle,
      andModify_lookup_none _ _ _ h]

theorem rebuildWalk_spans (l : List (String × DiagnosticsText)) : ∀ i,
    (rebuildWalk i l).2 =
      spansOfEntries ((l.filter (fun p => p.2.«show»)).map Prod.snd) := by
  induction l with
  | nil => intro i; rfl
  | cons p rest ih =>
    intro i
    obtain ⟨k, t⟩ := p
    by_cases hs : t.«show»
    · simp [rebuildWalk, hs, spansOfEntries, ih]
    · simp only [Bool.not_eq_true] at hs
      simp [rebuildWalk, hs, ih]

theorem rebuildWalk_indices (l : List (String × DiagnosticsText)) : ∀ i,
    (((rebuildWalk i l).1.filter (fun p => p.2.«show»)).map (fun p => p.2.index)) =
      expectedIndices i (l.filter (fun p => p.2.«show»)).length := by
  induction l with
  | nil => intro i; rfl
  | cons p rest ih =>
    intro i
    obtain ⟨k, t⟩ := p
    by_cases hs : t.«show»
    · simp [rebuildWalk, hs, expectedIndices, ih]
    · simp only [Bool.not_eq_true] at hs
      simp [rebuildWalk, hs, ih]

theorem rebuildWalk_invisible (l : List (String × DiagnosticsText)) :
    ∀ i (k : String) (t : DiagnosticsText),
      (k, t) ∈ l → t.«show» = false → (k, t) ∈ (rebuildWalk i l).1 := by
  induction l with
  | nil => intro i k t hm; simp at hm
  | cons p rest ih =>
    intro i k t hm hns
    obtain ⟨k1, t1⟩ := p
    by_cases hs : t1.«show»
    · rcases List.mem_cons.mp hm with he | hr
      · rw [Prod.mk.injEq] at he
        rw [← he.2, hns] at hs
        simp at hs
      · simp [rebuildWalk, hs]
        exact Or.inr (ih (i + 1) k t hr hns)
    · simp only [Bool.not_eq_true] at hs
      rcases List.mem_cons.mp hm with he | hr
      · simp [rebuildWalk, hs, he]
      · simp [rebuildWalk, hs]
        exact Or.inr (ih i k t hr hns)

theorem rebuildWalk_flags (l : List (String × DiagnosticsText)) : ∀ i,
    (rebuildWalk i l).1.map (fun p => (p.1, p.2.rebuild)) =
      l.map (fun p => (p.1, p.2.rebuild)) := by
  induction l with
  | nil => intro i; rfl
  | cons p rest ih =>
    intro i
    obtain ⟨k, t⟩ := p
    by_cases hs : t.«show»
    · simp [rebuildWalk, hs, ih]
    · simp only [Bool.not_eq_true] at hs
      simp [rebuildWalk, hs, ih]

theorem updateOne_rebuild (store : DiagnosticsStore) (t : DiagnosticsText)
    (spans : List Span) : (updateOne store t spans).1.rebuild = t.rebuild := by
  unfold updateOne
  cases hti : t.index with
  | none =>
    cases hsp : store t.path with
    | none => cases hte : t.edit <;> rfl
    | some d =>
      cases hav : aggregateValue t.agg d <;> cases hte : t.edit <;> simp [hti, hav]
  | some idx =>
    cases hsp : store t.path with
    | none => cases hte : t.edit <;> simp [hti, hte]
    | some d =>
      cases hav : aggregateValue t.agg d <;> cases hte : t.edit <;> simp [hti, hav, hte]

theorem updateWalk_rebuild_false (store : DiagnosticsStore)
    (l : List (String × DiagnosticsText)) :
    ∀ (spans : List Span) (p : String × DiagnosticsText),
      p ∈ (updateWalk store l spans).1 → p.2.rebuild = false := by
  induction l with
  | nil => intro spans p hp; simp [updateWalk] at hp
  | cons q rest ih =>
    intro spans p hp
    obtain ⟨k, t⟩ := q
    by_cases hr : t.rebuild
    · simp only [updateWalk, hr, if_pos] at hp
      rcases List.mem_cons.mp hp with he | hm
      · rw [he]
      · exact ih _ _ hm
    · have hr2 : t.rebuild = false := by simpa using hr
      by_cases hs : t.«show» = false
      · simp only [updateWalk, hr2, hs, Bool.false_eq_true, if_neg, if_pos,
          reduceIte] at hp
        rcases List.mem_cons.mp hp with he | hm
        · rw [he]; exact hr2
        · exact ih _ _ hm
      · have hs2 : t.«show» = true := by simpa using hs
        simp only [updateWalk, hr2, hs2, Bool.false_eq_true, Bool.true_eq_false,
          reduceIte] at hp
        rcases List.mem_cons.mp hp with he | hm
        · rw [he]
          show (updateOne store t spans).1.rebuild = false
          rw [updateOne_rebuild]
          exact hr2
        · exact ih _ _ hm

theorem getElem?_modifyAt (l : List Span) (f : Span → Span) :
    ∀ (i j : Nat), (modifyAt l j f)[i]? = if i = j then (l[j]?).map f else l[i]? := by
  induction l with
  | nil =>
    intro i j
    by_cases h : i = j <;> simp [modifyAt, h]
  | cons s rest ih =>
    intro i j
    cases j with
    | zero =>
      cases i with
      | zero => simp [modifyAt]
      | succ i => simp [modifyAt]
    | succ j =>
      cases i with
      | zero => simp [modifyAt]
      | succ i => simp [modifyAt, ih]

theorem textAt_setColor (spans : List Span) (j : Nat) (c : Color) (i : Nat) :
    textAt (setColor spans j c) i = textAt spans i := by
  unfold textAt setColor
  rw [getElem?_modifyAt]
  by_cases h : i = j
  · subst h
    cases hv : spans[i]? <;> simp [hv]
  · rw [if_neg h]

theorem textAt_setText_ne (spans : List Span) (j : Nat) (s : String) (i : Nat)
    (h : i ≠ j) : textAt (setText spans j s) i = textAt spans i := by
  unfold textAt setText
  rw [getElem?_modifyAt, if_neg h]

theorem updateOne_missing_text (store : DiagnosticsStore) (t : DiagnosticsText)
    (spans : List Span) (idx : Nat) (hidx : t.index = some idx)
    (hmiss : store t.path = none ∨
      ∃ d, store t.path = some d ∧ aggregateValue t.agg d = none) :
    textAt (updateOne store t spans).2 idx = textAt spans idx := by
  have hstep : ∀ sp : List Span,
      textAt (setText (setColor (setColor sp idx t.colors.1) (idx + 1) t.colors.2)
        (idx + 1) t.get_name) idx = textAt sp idx := by
    intro sp
    rw [textAt_setText_ne _ _ _ _ (by omega), textAt_setColor, textAt_setColor]
  rcases hmiss with hm | ⟨d, hsd, hagg⟩
  · cases hte : t.edit <;> simp [updateOne, hidx, hm, hte, hstep]
  · cases hte : t.edit <;> simp [updateOne, hidx, hsd, hagg, hte, hstep]

/- ===================== Claim theorems ===================== -/

/-- C1. The aggregation match of `update_diags` satisfies: `MovingAverage`
over a history shorter than the window yields `none`, otherwise the
arithmetic mean (sum over length) of exactly the last `window` samples;
and the four concrete evaluations of the spec hold. -/
theorem aggregate_correct :
    (∀ (window : Nat) (hist : List ℚ), hist.length < window →
        aggregateValue (Aggregate.MovingAverage window) (Diagnostic.mk hist) = none)
    ∧ (∀ (window : Nat) (hist : List ℚ), 0 < window → window ≤ hist.length →
        aggregateValue (Aggregate.MovingAverage window) (Diagnostic.mk hist) =
          some ((hist.drop (hist.length - window)).sum /
            (((hist.drop (hist.length - window)).length : ℚ)))
        ∧ (hist.drop (hist.length - window)).length = window)
    ∧ aggregateValue (Aggregate.MovingAverage 3) (Diagnostic.mk [1, 2, 3, 4]) = some 3
    ∧ aggregateValue (Aggregate.MovingAverage 3) (Diagnostic.mk [1, 2]) = none
    ∧ aggregateValue Aggregate.Average (Diagnostic.mk [2, 4, 6]) = some 4
    ∧ aggregateValue Aggregate.Value (Diagnostic.mk []) = none := by
  refine ⟨fun window hist h => ma_short_none window hist h, ?_, ?_, ?_, ?_, ?_⟩
  · intro window hist _ h2
    have hl := drop_last_length window hist h2
    refine ⟨?_, hl⟩
    rw [ma_long_some window hist h2, hl]
  · rw [ma_long_some 3 [1, 2, 3, 4] (by decide)]
    norm_num
  · decide
  · simp only [aggregateValue, Diagnostic.average]
    norm_num
  · decide

/-- C1 witness: both hypothesis-bearing conjuncts applied at concrete
histories. -/
theorem aggregate_correct_witness :
    aggregateValue (Aggregate.MovingAverage 3) (Diagnostic.mk [1]) = none
    ∧ (aggregateValue (Aggregate.MovingAverage 2) (Diagnostic.mk [1, 2, 3]) =
        some ((([1, 2, 3] : List ℚ).drop (([1, 2, 3] : List ℚ).length - 2)).sum /
          (((([1, 2, 3] : List ℚ).drop (([1, 2, 3] : List ℚ).length - 2)).length : ℚ)))
        ∧ (([1, 2, 3] : List ℚ).drop (([1, 2, 3] : List ℚ).length - 2)).length = 2) :=
  ⟨aggregate_correct.1 3 [1] (by decide),
    aggregate_correct.2.1 2 [1, 2, 3] (by decide) (by decide)⟩

/-- C10. The moving-average computation is total: an oversized window makes
`checked_sub` yield `none` (no underflow); on a sufficient history the
divisor is the window itself; and with window 0 the result is still `some`
(a division by zero value), never `none` or a panic. -/
theorem moving_average_total :
    (∀ (window : Nat) (hist : List ℚ), hist.length < window →
        aggregateValue (Aggregate.MovingAverage window) (Diagnostic.mk hist) = none)
    ∧ (∀ (window : Nat) (hist : List ℚ), window ≤ hist.length →
        aggregateValue (Aggregate.MovingAverage window) (Diagnostic.mk hist) =
          some ((hist.drop (hist.length - window)).sum / (window : ℚ)))
    ∧ (∀ hist : List ℚ,
        (aggregateValue (Aggregate.MovingAverage 0) (Diagnostic.mk hist)).isSome = true) := by
  refine ⟨fun w hist h => ma_short_none w hist h, fun w hist h => ma_long_some w hist h, ?_⟩
  intro hist
  rw [ma_long_some 0 hist (Nat.zero_le _)]
  rfl

/-- C10 witness: the hypothesis-bearing conjuncts applied at concrete
inputs. -/
theorem moving_average_total_witness :
    aggregateValue (Aggregate.MovingAverage 4) (Diagnostic.mk [1]) = none
    ∧ aggregateValue (Aggregate.MovingAverage 2) (Diagnostic.mk [1, 2, 3]) =
        some ((([1, 2, 3] : List ℚ).drop (([1, 2, 3] : List ℚ).length - 2)).sum / ((2 : Nat) : ℚ)) :=
  ⟨moving_average_total.1 4 [1] (by decide),
    moving_average_total.2.1 2 [1, 2, 3] (by decide)⟩

/-- C3 (code bug). `ScreenDiagnostics::remove` deletes the entry and
silently ignores an absent name, but — contrary to the spec — it never
sets the registry's global layout flag: the flag is passed through
unchanged for every input, so the removed entry's spans are never
rebuilt away. -/
theorem remove_no_global_flag :
    ((ScreenDiagnostics.default.add "a" "p").remove "a").diagnostics.lookup "a" = none
    ∧ ((ScreenDiagnostics.default.add "a" "p").remove "a").layout_changed = false
    ∧ (ScreenDiagnostics.default.add "a" "p").remove "b" =
        ScreenDiagnostics.default.add "a" "p"
    ∧ (∀ (r : ScreenDiagnostics) (name : String),
        (r.remove name).layout_changed = r.layout_changed) :=
  ⟨rfl, rfl, rfl, fun _ _ => rfl⟩

/-- C4 counterexample: immediately after `add` on the default registry the
new entry carries `rebuild = true`, yet the registry's global
`layout_changed` flag is still `false` — the claimed invariant fails. -/
theorem add_global_flag_cex :
    (((ScreenDiagnostics.default.add "a" "p").diagnostics.lookup "a").map
        (fun t => t.rebuild)) = some true
    ∧ (ScreenDiagnostics.default.add "a" "p").layout_changed = false :=
  ⟨rfl, rfl⟩

/-- C4 amended: `add` sets the new entry's per-entry rebuild flag and
leaves the global flag unchanged; the global flag becomes true only when
the next update pass observes some rebuild-flagged entry. -/
theorem add_dirty_amended :
    (∀ (r : ScreenDiagnostics) (name path : String),
        (ScreenDiagnostics.add r name path).diagnostics.lookup name =
            some (newText name path)
        ∧ (newText name path).rebuild = true
        ∧ (ScreenDiagnostics.add r name path).layout_changed = r.layout_changed)
    ∧ (∀ (store : DiagnosticsStore) (r : ScreenDiagnostics) (ui : UiState),
        r.layout_changed = false →
        r.diagnostics.any (fun p => p.2.rebuild) = true →
        (update_diags store r ui).1.layout_changed = true) := by
  constructor
  · intro r name path
    exact ⟨lookup_btreeInsert r.diagnostics name (newText name path), rfl, rfl⟩
  · intro store r ui h0 hany
    simp only [update_diags, h0, if_neg Bool.false_ne_true]
    rw [updateWalk_flag, any_reverse_rebuild]
    exact hany

/-- C4 witness: the amended claim applied at a concrete registry. -/
theorem add_dirty_amended_witness :
    (update_diags emptyStore (ScreenDiagnostics.default.add "a" "p")
        initialUi).1.layout_changed = true :=
  add_dirty_amended.2 emptyStore (ScreenDiagnostics.default.add "a" "p")
    initialUi rfl rfl

/-- C6. `modify` on an absent name followed by any chained sequence of
builder calls leaves the registry completely unchanged: `and_modify` never
inserts, so every call is a total no-op. -/
theorem modify_missing_noop (r : ScreenDiagnostics) (k : String)
    (ops : List BuilderOp) (h : r.diagnostics.lookup k = none) :
    applyOps r k ops = r := by
  induction ops with
  | nil => rfl
  | cons op ops ih =>
    show applyOps (applyOp r k op) k ops = r
    rw [applyOp_noop r k op h]
    exact ih

/-- C6 witness: a concrete chained call sequence on an absent name. -/
theorem modify_missing_noop_witness :
    applyOps (ScreenDiagnostics.default.add "a" "p") "b"
        [BuilderOp.toggle, BuilderOp.aggregate Aggregate.Average,
          BuilderOp.toggle_name, BuilderOp.diagnostic_color Color.white,
          BuilderOp.name_color Color.red] =
      ScreenDiagnostics.default.add "a" "p" :=
  modify_missing_noop (ScreenDiagnostics.default.add "a" "p") "b" _ rfl

/-- C9. For an existing entry, `toggle` flips only `show` and sets the
rebuild flag; applied twice it returns `show` to its original value.
`toggle_name` flips only `show_name` and sets the edit flag; applied twice
it returns `show_name` to its original value. Other entries and the
registry's own fields are untouched. -/
theorem toggle_involutive (r : ScreenDiagnostics) (k : String)
    (e : DiagnosticsText) (h : r.diagnostics.lookup k = some e) :
    (Builder.toggle r k).diagnostics.lookup k =
        some { e with «show» := !e.«show», rebuild := true }
    ∧ (Builder.toggle (Builder.toggle r k) k).diagnostics.lookup k =
        some { e with rebuild := true }
    ∧ (Builder.toggle_name r k).diagnostics.lookup k =
        some { e with show_name := !e.show_name, edit := true }
    ∧ (Builder.toggle_name (Builder.toggle_name r k) k).diagnostics.lookup k =
        some { e with edit := true }
    ∧ (∀ k1, k1 ≠ k →
        (Builder.toggle r k).diagnostics.lookup k1 = r.diagnostics.lookup k1
        ∧ (Builder.toggle_name r k).diagnostics.lookup k1 = r.diagnostics.lookup k1)
    ∧ (Builder.toggle r k).layout_changed = r.layout_changed
    ∧ (Builder.toggle r k).text_alignment = r.text_alignment
    ∧ (Builder.toggle_name r k).layout_changed = r.layout_changed
    ∧ (Builder.toggle_name r k).text_alignment = r.text_alignment := by
  refine ⟨?_, ?_, ?_, ?_, ?_, rfl, rfl, rfl, rfl⟩
  · simp only [Builder.toggle]
    rw [lookup_andModify_self, h]
    rfl
  · simp only [Builder.toggle]
    rw [lookup_andModify_self, lookup_andModify_self, h]
    simp
  · simp only [Builder.toggle_name]
    rw [lookup_andModify_self, h]
    rfl
  · simp only [Builder.toggle_name]
    rw [lookup_andModify_self, lookup_andModify_self, h]
    simp
  · intro k1 hk1
    constructor
    · simp only [Builder.toggle]
      exact lookup_andModify_ne _ _ _ _ hk1
    · simp only [Builder.toggle_name]
      exact lookup_andModify_ne _ _ _ _ hk1

/-- C9 witness: the double-toggle equalities at a concrete registry. -/
theorem toggle_involutive_witness :
    (Builder.toggle (Builder.toggle (ScreenDiagnostics.default.add "a" "p") "a")
        "a").diagnostics.lookup "a" = some { newText "a" "p" with rebuild := true }
    ∧ (Builder.toggle_name (Builder.toggle_name
        (ScreenDiagnostics.default.add "a" "p") "a") "a").diagnostics.lookup "a" =
          some { newText "a" "p" with edit := true } :=
  ⟨(toggle_involutive (ScreenDiagnostics.default.add "a" "p") "a"
      (newText "a" "p") rfl).2.1,
    (toggle_involutive (ScreenDiagnostics.default.add "a" "p") "a"
      (newText "a" "p") rfl).2.2.2.1⟩

/-- C2 counterexample: on a one-entry registry with a dirty layout, the
rebuild emits the value span with initial text `"test_val"`, not the empty
string the claim asserts. -/
theorem rebuild_value_span_cex :
    textAt (update_onscreen_diags_layout oneEntryDirty initialUi).2.spans 1 =
        some "test_val"
    ∧ textAt (update_onscreen_diags_layout oneEntryDirty initialUi).2.spans 1 ≠
        some "" :=
  ⟨rfl, by decide⟩

/-- C2 amended: the rebuild walks the entries in reverse storage order
(descending name order when the keys are sorted ascending), filters to the
visible ones, gives the i-th visible entry index `i*2+1`, and emits per
visible entry a value span whose initial text is `"test_val"` (not the
empty string) with the value color, then the label span from `get_name`
with the label color, contiguously. -/
theorem rebuild_spans_amended (r : ScreenDiagnostics) (ui : UiState)
    (h : r.layout_changed = true) :
    (update_onscreen_diags_layout r ui).2.spans =
        rootSpan :: spansOfEntries
          ((r.diagnostics.reverse.filter (fun p => p.2.«show»)).map Prod.snd)
    ∧ (update_onscreen_diags_layout r ui).2.alignment = r.text_alignment
    ∧ (((update_onscreen_diags_layout r ui).1.diagnostics.reverse.filter
          (fun p => p.2.«show»)).map (fun p => p.2.index)) =
        expectedIndices 0 ((r.diagnostics.reverse.filter (fun p => p.2.«show»)).length)
    ∧ (List.Pairwise (fun p q : String × DiagnosticsText => p.1 < q.1) r.diagnostics →
        List.Pairwise (fun p q : String × DiagnosticsText => q.1 < p.1)
          (r.diagnostics.reverse.filter (fun p => p.2.«show»))) := by
  refine ⟨?_, ?_, ?_, ?_⟩
  · simp [update_onscreen_diags_layout, h, rebuildWalk_spans]
  · simp [update_onscreen_diags_layout, h]
  · simp only [update_onscreen_diags_layout, h, if_pos, reduceIte,
      List.reverse_reverse]
    exact rebuildWalk_indices r.diagnostics.reverse 0
  · intro hsorted
    have hrev : List.Pairwise (fun p q : String × DiagnosticsText => q.1 < p.1)
        r.diagnostics.reverse := List.pairwise_reverse.mpr hsorted
    exact List.Pairwise.sublist (List.filter_sublist _) hrev

/-- C2 witness: the amended rebuild description applied at a concrete
dirty registry. -/
theorem rebuild_spans_amended_witness :
    (update_onscreen_diags_layout oneEntryDirty initialUi).2.spans =
      rootSpan :: spansOfEntries
        ((oneEntryDirty.diagnostics.reverse.filter (fun p => p.2.«show»)).map
          Prod.snd) :=
  (rebuild_spans_amended oneEntryDirty initialUi rfl).1

/-- C5 counterexample: add an entry, tick until it has render index 1,
toggle it invisible, tick twice so a rebuild pass completes with the entry
invisible — the entry retains the stale index `some 1` instead of the
claimed `none`. -/
theorem stale_index_cex :
    c5step3.1.layout_changed = true
    ∧ ((c5step4.1.diagnostics.lookup "a").map (fun t => (t.«show», t.index))) =
        some (false, some 1) :=
  ⟨rfl, rfl⟩

/-- C5 amended: the rebuild assigns `i*2+1` to the i-th visible entry;
invisible entries pass through completely untouched, so they keep whatever
`render_index` they had — possibly a stale `some` — rather than being
reset to `none`. -/
theorem render_index_amended (r : ScreenDiagnostics) (ui : UiState)
    (h : r.layout_changed = true) :
    (∀ (k : String) (t : DiagnosticsText), (k, t) ∈ r.diagnostics →
        t.«show» = false →
        (k, t) ∈ (update_onscreen_diags_layout r ui).1.diagnostics)
    ∧ (((update_onscreen_diags_layout r ui).1.diagnostics.reverse.filter
          (fun p => p.2.«show»)).map (fun p => p.2.index)) =
        expectedIndices 0
          ((r.diagnostics.reverse.filter (fun p => p.2.«show»)).length) := by
  constructor
  · intro k t hm hns
    simp only [update_onscreen_diags_layout, h, if_pos, reduceIte, List.mem_reverse]
    exact rebuildWalk_invisible r.diagnostics.reverse 0 k t
      (List.mem_reverse.mpr hm) hns
  · simp only [update_onscreen_diags_layout, h, if_pos, reduceIte,
      List.reverse_reverse]
    exact rebuildWalk_indices r.diagnostics.reverse 0

/-- C5 witness: the amended index-assignment property at a concrete dirty
registry. -/
theorem render_index_amended_witness :
    ((update_onscreen_diags_layout oneEntryDirty initialUi).1.diagnostics.reverse.filter
        (fun p => p.2.«show»)).map (fun p => p.2.index) =
      expectedIndices 0
        ((oneEntryDirty.diagnostics.reverse.filter (fun p => p.2.«show»)).length) :=
  (render_index_amended oneEntryDirty initialUi rfl).2

/-- C7 counterexample: after a rebuild pass on a dirty registry whose entry
has `rebuild = true`, the global flag is cleared but the per-entry flag is
NOT — the rebuild phase does not clear per-entry layout-dirty flags. -/
theorem rebuild_keeps_entry_flags_cex :
    (((update_onscreen_diags_layout oneEntryDirty7 initialUi).1.diagnostics.lookup
        "a").map (fun t => t.rebuild)) = some true
    ∧ (update_onscreen_diags_layout oneEntryDirty7 initialUi).1.layout_changed =
        false :=
  ⟨rfl, rfl⟩

/-- C7 amended: within a tick the rebuild system runs strictly before the
update system; the rebuild clears only the registry's global flag and
leaves every per-entry rebuild flag untouched (those are cleared by the
update phase instead); and an update phase that observes the global flag
still true changes nothing at all that tick. -/
theorem two_phase_amended :
    (∀ (store : DiagnosticsStore) (r : ScreenDiagnostics) (ui : UiState),
        tick store r ui =
          update_diags store (update_onscreen_diags_layout r ui).1
            (update_onscreen_diags_layout r ui).2)
    ∧ (∀ (r : ScreenDiagnostics) (ui : UiState),
        (update_onscreen_diags_layout r ui).1.layout_changed = false)
    ∧ (∀ (r : ScreenDiagnostics) (ui : UiState),
        (update_onscreen_diags_layout r ui).1.diagnostics.map
            (fun p => (p.1, p.2.rebuild)) =
          r.diagnostics.map (fun p => (p.1, p.2.rebuild)))
    ∧ (∀ (store : DiagnosticsStore) (r : ScreenDiagnostics) (ui : UiState),
        r.layout_changed = true → update_diags store r ui = (r, ui))
    ∧ (∀ (store : DiagnosticsStore) (r : ScreenDiagnostics) (ui : UiState),
        r.layout_changed = false →
        ∀ p ∈ (update_diags store r ui).1.diagnostics, p.2.rebuild = false) := by
  refine ⟨fun _ _ _ => rfl, ?_, ?_, ?_, ?_⟩
  · intro r ui
    by_cases h : r.layout_changed = true
    · simp [update_onscreen_diags_layout, h]
    · have hf : r.layout_changed = false := by simpa using h
      simp [update_onscreen_diags_layout, hf]
  · intro r ui
    by_cases h : r.layout_changed = true
    · simp [update_onscreen_diags_layout, h, List.map_reverse, rebuildWalk_flags,
        List.reverse_reverse]
    · have hf : r.layout_changed = false := by simpa using h
      simp [update_onscreen_diags_layout, hf]
  · intro store r ui h
    simp [update_diags, h]
  · intro store r ui h p hp
    simp only [update_diags, h, Bool.false_eq_true, reduceIte,
      List.mem_reverse] at hp
    exact updateWalk_rebuild_false store r.diagnostics.reverse ui.spans p hp

/-- C7 witness: the two hypothesis-bearing conjuncts applied at concrete
states: a dirty-layout update pass is the identity, and a clean update
pass leaves every per-entry rebuild flag false. -/
theorem two_phase_amended_witness :
    update_diags emptyStore oneEntryDirty7 initialUi = (oneEntryDirty7, initialUi)
    ∧ ∀ p ∈ (update_diags emptyStore (ScreenDiagnostics.default.add "a" "p")
        initialUi).1.diagnostics, p.2.rebuild = false :=
  ⟨two_phase_amended.2.2.2.1 emptyStore oneEntryDirty7 initialUi rfl,
    two_phase_amended.2.2.2.2 emptyStore (ScreenDiagnostics.default.add "a" "p")
      initialUi rfl⟩

/-- C8. In the update phase, an entry whose store lookup finds nothing, or
whose aggregate returns `none`, never has its value-span text changed (the
visual-edit block touches only the colors and the label span); and the loop
is compositional — every entry is processed in order with the section list
threaded through, so one entry's missing data never prevents the entries
after it from being processed. All paths are total: no error is raised. -/
theorem update_missing_data :
    (∀ (store : DiagnosticsStore) (t : DiagnosticsText) (spans : List Span)
        (idx : Nat), t.index = some idx →
        (store t.path = none ∨
          ∃ d, store t.path = some d ∧ aggregateValue t.agg d = none) →
        textAt (updateOne store t spans).2 idx = textAt spans idx)
    ∧ (∀ (store : DiagnosticsStore) (l1 l2 : List (String × DiagnosticsText))
        (spans : List Span),
        updateWalk store (l1 ++ l2) spans =
          ((updateWalk store l1 spans).1 ++
              (updateWalk store l2 (updateWalk store l1 spans).2.1).1,
            (updateWalk store l2 (updateWalk store l1 spans).2.1).2.1,
            ((updateWalk store l1 spans).2.2 ||
              (updateWalk store l2 (updateWalk store l1 spans).2.1).2.2))) := by
  constructor
  · exact fun store t spans idx hidx hmiss =>
      updateOne_missing_text store t spans idx hidx hmiss
  · intro store l1 l2 spans
    induction l1 generalizing spans with
    | nil => simp [updateWalk]
    | cons q rest ih =>
      obtain ⟨k, t⟩ := q
      by_cases hr : t.rebuild
      · simp [updateWalk, hr, ih]
      · have hr2 : t.rebuild = false := by simpa using hr
        by_cases hs : t.«show» = false
        · simp [updateWalk, hr2, hs, ih]
        · have hs2 : t.«show» = true := by simpa using hs
          simp [updateWalk, hr2, hs2, ih]

/-- C8 witness: the missing-data conjunct applied at a concrete entry with
index 1 over an empty store. -/
theorem update_missing_data_witness :
    textAt (updateOne emptyStore { newText "a" "p" with index := some 1 }
        [rootSpan, { text := "x", color := Color.red }]).2 1 =
      textAt [rootSpan, { text := "x", color := Color.red }] 1 :=
  update_missing_data.1 emptyStore { newText "a" "p" with index := some 1 }
    [rootSpan, { text := "x", color := Color.red }] 1 rfl (Or.inl rfl)

end ScreenDiag
